import Mathlib

/-!
Verification of the orus-core gateway (Go) against its specification.

The definitions below are a shallow embedding of the repository's source:

* `ollama_client.go` — the NDJSON decode loops of `Chat`, `ChatStream`
  and `PullModel`;
* `orus.go` (final version of the file) — the HTTP handlers `EmbedText`,
  `CallLLM`, `OllamaPullModel`, the provider switch `embedText`, and the
  goroutine/`select` dispatch race of `EmbedText`.

External effects are made explicit: an NDJSON backend stream is a list of
`DecodeItem`s (a successfully decoded object or a malformed one), the SSE
output is a trace of write/flush actions, timestamps and UUID serials are
parameters standing for the values produced by `time.Now()`/`uuid.New()`
at the corresponding program point, and backend invocations are recorded
in an effect list.
-/

namespace OrusCore

/-- Message, from orus.go: role and content strings. -/
structure Message where
  role : String
  content : String
deriving Repr, DecidableEq

/-- ChatRequest, from orus.go (swagger-tagged request struct). -/
structure ChatRequest where
  model : String
  messages : List Message
  stream : Bool
  format : String
  think : Bool
  images : List String
deriving Repr, DecidableEq

/-- ChatResponse, from orus.go. `createdAt` is an abstract timestamp tick. -/
structure ChatResponse where
  model : String
  message : Message
  createdAt : Nat
  done : Bool
deriving Repr, DecidableEq

/-- ChatStreamResponse, from ollama_client.go. -/
structure ChatStreamResponse where
  model : String
  message : Message
  createdAt : Nat
  done : Bool
  progress : Nat
  total : Int
  completed : Int
deriving Repr, DecidableEq

/-- PullModelProgress, from ollama_client.go. -/
structure PullModelProgress where
  status : String
  digest : String
  total : Int
  completed : Int
deriving Repr, DecidableEq

/-- One item of an NDJSON backend stream as seen by `json.Decoder`:
either a successfully decoded object or a malformed one (whose decode
failure message is carried as a string). The stream ends when the list
does (`decoder.More()` returns false). -/
inductive DecodeItem (α : Type) where
  | ok (a : α)
  | bad (msg : String)
deriving Repr, DecidableEq

/-- The zero value of `ChatResponse` (`var finalResponse ChatResponse`). -/
def ChatResponse.zero : ChatResponse :=
  { model := "", message := { role := "", content := "" }, createdAt := 0, done := false }

/-- Concatenation of a list of strings in order; models both `+=`
accumulation and `strings.Join(xs, "")`. -/
def strConcat : List String → String
  | [] => ""
  | s :: rest => s ++ strConcat rest

/-- The portion of a stream of decoded objects actually consumed by a loop
that stops after the first element satisfying `p`: every element up to and
including that one. -/
def takeThrough (p : α → Prop) [DecidablePred p] : List α → List α
  | [] => []
  | a :: rest => if p a then [a] else a :: takeThrough p rest

/-- The objects a decode loop stopping at `p` successfully decodes from an
NDJSON stream: the well-formed prefix, cut at the first malformed object
(excluded) or at the first object satisfying `p` (included). -/
def decodedEvents (p : α → Prop) [DecidablePred p] : List (DecodeItem α) → List α
  | [] => []
  | .bad _ :: _ => []
  | .ok a :: rest => if p a then [a] else a :: decodedEvents p rest

/-- The decode failure, if any, that a decode loop stopping at `p` runs
into on an NDJSON stream: the message of the first malformed object, if it
sits in the decoded portion of the stream. -/
def decodeAbort (p : α → Prop) [DecidablePred p] : List (DecodeItem α) → Option String
  | [] => none
  | .bad m :: _ => some m
  | .ok a :: rest => if p a then none else decodeAbort p rest

/-- Decode loop of `OllamaClient.Chat` (ollama_client.go lines 111-128):
state is the accumulator `fullContent` and the running `finalResponse`;
each decoded object appends its content delta and overwrites the model,
timestamp, done flag and message role; the loop stops after a `done`
object or at end of stream, and aborts with an error on a malformed
object. -/
def ChatLoop : List (DecodeItem ChatResponse) → String → ChatResponse →
    Except String (String × ChatResponse)
  | [], fullContent, finalResponse => .ok (fullContent, finalResponse)
  | .bad m :: _, _, _ => .error ("error decoding response: " ++ m)
  | .ok chatResp :: rest, fullContent, finalResponse =>
      let fullContent := fullContent ++ chatResp.message.content
      let finalResponse :=
        { finalResponse with
            model := chatResp.model
            createdAt := chatResp.createdAt
            done := chatResp.done
            message := { finalResponse.message with role := chatResp.message.role } }
      if chatResp.done then .ok (fullContent, finalResponse)
      else ChatLoop rest fullContent finalResponse

/-- `OllamaClient.Chat` (ollama_client.go lines 89-131), given the NDJSON
stream of the backend's 200 response: runs the decode loop from the zero
value and finally stores the accumulated content into the response. -/
def Chat (stream : List (DecodeItem ChatResponse)) : Except String ChatResponse :=
  match ChatLoop stream "" ChatResponse.zero with
  | .error e => .error e
  | .ok (fullContent, finalResponse) =>
      .ok { finalResponse with
              message := { finalResponse.message with content := fullContent } }

/-- The mutation `ChatStream` applies to a decoded object before handing it
to the callback (ollama_client.go lines 157-165): the per-iteration
variable `fullContent` starts at `""` and receives exactly this one delta,
the model is overwritten with the request's model, and `CreatedAt` is
overwritten with the local clock value `now i` at the i-th iteration
(`time.Now()`). -/
def chatStreamTransform (req : ChatRequest) (now : Nat → Nat) (i : Nat)
    (chatResp : ChatStreamResponse) : ChatStreamResponse :=
  let fullContent := "" ++ chatResp.message.content
  { chatResp with
      message := { chatResp.message with content := fullContent }
      model := req.model
      createdAt := now i }

/-- Decode loop of `OllamaClient.ChatStream` (ollama_client.go lines
155-171): returns the list of callback invocations in order together with
the error result (`none` models the final `return nil`). `i` counts
iterations so that `now i` is the local timestamp of the i-th decode. -/
def ChatStreamGo (req : ChatRequest) (now : Nat → Nat) :
    Nat → List (DecodeItem ChatStreamResponse) →
    List ChatStreamResponse × Option String
  | _, [] => ([], none)
  | _, .bad m :: _ => ([], some ("error decoding response: " ++ m))
  | i, .ok chatResp :: rest =>
      let delivered := chatStreamTransform req now i chatResp
      if chatResp.done then ([delivered], none)
      else
        let r := ChatStreamGo req now (i + 1) rest
        (delivered :: r.1, r.2)

/-- One SSE payload written by the gateway: a relayed chat stream event, a
mid-stream error object `{"status":"error","error":...}`, the closing chat
summary object, a relayed pull-model progress object, a pull error object,
or the pull success object. The JSON serialization itself is done by the
external `encoding/json` library and is kept abstract. -/
inductive SSEFrame where
  | event (e : ChatStreamResponse)
  | errorFrame (status errMsg : String)
  | summary (status message content serial : String) (timeTaken : Nat)
      (model : String) (stream : Bool)
  | pull (p : PullModelProgress)
  | pullError (status errMsg : String)
  | pullSuccess (status message : String)
deriving Repr, DecidableEq

/-- One action on the HTTP response writer of an SSE handler: writing one
`data:` frame, or calling `flusher.Flush()`. -/
inductive WireAction where
  | write (f : SSEFrame)
  | flush
deriving Repr, DecidableEq

/-- Wire shape of one SSE frame: `fmt.Fprintf(w, "data: %s\n\n", json)`. -/
def sseWireFormat (payload : String) : String :=
  "data: " ++ payload ++ "\n\n"

/-- Rendering of a wire action given an abstract JSON encoder `enc` for
the payload objects: a write produces one `data: <json>\n\n` chunk, a
flush produces no bytes. -/
def renderAction (enc : SSEFrame → String) : WireAction → List String
  | .write f => [sseWireFormat (enc f)]
  | .flush => []

/-- Trace of the streaming callback of `CallLLM` (orus.go lines
1307-1312), applied to each delivered event in order: marshal the event,
write one `data:` frame, flush. -/
def relayTrace : List ChatStreamResponse → List WireAction
  | [] => []
  | e :: rest => .write (.event e) :: .flush :: relayTrace rest

/-- The `content` slice accumulated by the streaming callback of
`CallLLM`: one entry per delivered event, in order
(`content = append(content, chatResp.Message.Content)`). -/
def callbackContents : List ChatStreamResponse → List String
  | [] => []
  | e :: rest => e.message.content :: callbackContents rest

/-- Streaming branch of `CallLLM` (orus.go lines 1294-1334), given the
backend NDJSON stream: the initial flush, then the callback trace driven
by `ChatStream`, then — depending on `ChatStream`'s error result — either
one error frame or one closing summary frame whose content is
`strings.Join(content, "")`, with the serial produced by `uuid.New()` and
the elapsed time, each followed by a flush. -/
def callLLMStreamTrace (req : ChatRequest) (now : Nat → Nat)
    (serial : String) (elapsed : Nat)
    (stream : List (DecodeItem ChatStreamResponse)) : List WireAction :=
  let r := ChatStreamGo req now 0 stream
  .flush :: relayTrace r.1 ++
    match r.2 with
    | some errMsg => [.write (.errorFrame "error" errMsg), .flush]
    | none =>
        [.write (.summary "success" "LLM request received successfully"
            (strConcat (callbackContents r.1)) serial elapsed req.model true),
         .flush]

/-- Decode loop of `OllamaClient.PullModel` (ollama_client.go lines
270-286): each decoded progress object is handed to the callback, the loop
breaks after the first object whose status is `"success"`, a malformed
object makes the function return the decode error unwrapped, and falling
off the end of the stream returns `nil`. The result is the list of
callback deliveries and the error result. -/
def PullModelLoop : List (DecodeItem PullModelProgress) →
    List PullModelProgress × Option String
  | [] => ([], none)
  | .bad m :: _ => ([], some m)
  | .ok progress :: rest =>
      if progress.status = "success" then ([progress], none)
      else
        let r := PullModelLoop rest
        (progress :: r.1, r.2)

/-- SSE output of `OllamaPullModel` from the point where
`s.OllamaClient.PullModel` is invoked (orus.go lines 1102-1131): the
progress callback writes and flushes one frame per delivered object; if
`PullModel` returns an error, one error frame is written, otherwise one
`{"status":"success", ...}` frame is written. -/
def OllamaPullModelRelay (name : String)
    (stream : List (DecodeItem PullModelProgress)) : List WireAction :=
  let r := PullModelLoop stream
  (r.1.flatMap fun p => [.write (.pull p), .flush]) ++
    match r.2 with
    | some e => [.write (.pullError "error" e), .flush]
    | none =>
        [.write (.pullSuccess "success"
            ("Model " ++ name ++ " downloaded successfully")), .flush]

/-- Abstract stand-in for a Go `float32` value: the embedding numerics are
owned by an external library (spec section 1) and are never inspected by
the verified routing logic. -/
structure GoFloat32 where
  tag : Nat
deriving Repr, DecidableEq

/-- Abstract stand-in for a Go `float64` value. -/
structure GoFloat64 where
  tag : Nat
deriving Repr, DecidableEq

/-- One element of the `[]any` vector built by `embedText`. -/
inductive VecElem where
  | f32 (x : GoFloat32)
  | f64 (x : GoFloat64)
deriving Repr, DecidableEq

/-- The `Data` map built by a successful `embedText`
(orus.go lines 1196-1203). -/
structure EmbedPayload where
  serial : String
  vector : List VecElem
  text : String
  model : String
  dimensions : Nat
  quantization : String
deriving Repr, DecidableEq

/-- The uniform response envelope returned to clients (spec section 3:
success flag, human-readable message, error string, opaque data payload,
elapsed duration, request serial identifier). Its Go definition is not
part of the sources under verification; fields are those used by the
handlers, with the data payload specialized to the embed payload, the only
one the verified claims inspect. -/
structure OrusResponse where
  success : Bool
  serial : String
  message : String
  error : String
  timeTaken : Nat
  data : Option EmbedPayload
deriving Repr, DecidableEq

/-- Modelled from the spec: `NewOrusResponse()` allocates a fresh envelope
(its Go body is not under src/); defaults are modelled as zero values.
Every claim proved about an envelope only mentions fields the handlers
overwrite explicitly, so these defaults are never load-bearing. -/
def NewOrusResponse : OrusResponse :=
  { success := false, serial := "", message := "", error := "",
    timeTaken := 0, data := none }

/-- One dynamically-typed value of the untyped request body map
(`map[string]interface{}`), restricted to the shapes the handlers test
for. -/
inductive BodyVal where
  | str (s : String)
  | boolVal (b : Bool)
  | strs (l : List String)
  | other
deriving Repr, DecidableEq

/-- The Go type assertion `v.(string)`. -/
def BodyVal.asString : BodyVal → Option String
  | .str s => some s
  | _ => none

/-- The Go type assertion `v.(bool)`. -/
def BodyVal.asBool : BodyVal → Option Bool
  | .boolVal b => some b
  | _ => none

/-- The Go type assertion `v.([]string)`. -/
def BodyVal.asStrings : BodyVal → Option (List String)
  | .strs l => some l
  | _ => none

/-- An untyped request body map, as an association list. -/
def GoBody := List (String × BodyVal)

/-- Go map lookup `v, ok := body[key]`. -/
def goLookup : GoBody → String → Option BodyVal
  | [], _ => none
  | (k, v) :: rest, key => if k = key then some v else goLookup rest key

/-- The inbound request structure with its untyped body map. Its Go
definition is not under src/ but its only observable in the verified
handlers is the `Body` map accessed by key. -/
structure OrusRequest where
  body : GoBody

/-- `new(OrusRequest)`: the zero value, whose `Body` map is nil — every
key lookup misses. A nil Go map and the empty association list have the
same lookup observables. -/
def OrusRequest.new : OrusRequest := { body := [] }

/-- One reply sent to the client by a handler: `respondError(w, status,
code, msg)`, `respondJSON(w, status, resp)`, the raw success map of the
non-streaming `CallLLM` branch, or an SSE action trace on an open
stream. -/
inductive HttpReply where
  | respondError (status : Nat) (code msg : String)
  | respondJSON (status : Nat) (resp : OrusResponse)
  | respondLLM (status : Nat) (success : Bool) (message content serial : String)
      (timeTaken : Nat) (model : String) (stream think : Bool)
  | sse (trace : List WireAction)
deriving Repr, DecidableEq

/-- net/http status constants used by the handlers. -/
def StatusOK : Nat := 200

/-- net/http 400. -/
def StatusBadRequest : Nat := 400

/-- net/http 500. -/
def StatusInternalServerError : Nat := 500

/-- net/http 504, `http.StatusGatewayTimeout`. -/
def StatusGatewayTimeout : Nat := 504

/-- One invocation of the in-process embedder or of the Ollama backend
client, recorded as an effect. -/
inductive BackendCall where
  | bgeEmbed (text : String)
  | getEmbedding (model text : String)
  | chat (req : ChatRequest)
  | chatStream (req : ChatRequest)
  | pullModel (name : String)
deriving Repr, DecidableEq

/-- Results of the two embedding providers, abstract over the numeric
values: `s.Orus.BGEM3Embedder.Embed` and
`s.Orus.OllamaClient.GetEmbedding`. -/
structure EmbedEnv where
  bgeEmbed : String → Except String (List GoFloat32)
  getEmbedding : String → String → Except String (List GoFloat64)

/-- Provider switch `embedText` (orus.go lines 1133-1208): a sequential
exact-match test of the model identifier, as Go's `switch` on a string.
Returns the envelope and the backend calls made. `serial` stands for the
`uuid.New().String()` drawn before the switch, `elapsed` for
`time.Since(startTime)`. -/
def embedText (env : EmbedEnv) (serial model text : String) (elapsed : Nat) :
    OrusResponse × List BackendCall :=
  let resp := NewOrusResponse
  let embedErr := fun (e : String) =>
    { resp with error := e, success := false, timeTaken := elapsed,
                message := "Error embedding text with model " ++ model }
  let embedOk := fun (vector : List VecElem) (quantization : String) =>
    { resp with
        data := some { serial := serial, vector := vector, text := text,
                       model := model, dimensions := vector.length,
                       quantization := quantization },
        success := true, timeTaken := elapsed,
        message := "Embed request received successfully" }
  if model = "bge-m3" then
    match env.bgeEmbed text with
    | .error e => (embedErr e, [.bgeEmbed text])
    | .ok vector32 => (embedOk (vector32.map .f32) "float32", [.bgeEmbed text])
  else if model = "nomic-embed-text:latest" then
    match env.getEmbedding model text with
    | .error e => (embedErr e, [.getEmbedding model text])
    | .ok vector64 => (embedOk (vector64.map .f64) "float64", [.getEmbedding model text])
  else if model = "ollama-bge-m3" then
    match env.getEmbedding "bge-m3:latest" text with
    | .error e => (embedErr e, [.getEmbedding "bge-m3:latest" text])
    | .ok vector64 => (embedOk (vector64.map .f64) "float64", [.getEmbedding "bge-m3:latest" text])
  else
    ({ resp with error := "Invalid model", success := false,
                 timeTaken := elapsed, message := "Invalid model" }, [])

/-- The client-facing deadline of `EmbedText`:
`context.WithTimeout(r.Context(), 60*time.Second)` — 60 seconds, or the
caller's own remaining budget when that is shorter. Units are seconds. -/
def clientDeadline : Option Nat → Nat
  | none => 60
  | some callerRemaining => min callerRemaining 60

/-- Which branch of the handler's `select` fires (orus.go lines
1032-1042): the worker's result channel if the operation completes
strictly before the deadline, otherwise `ctx.Done()`. -/
inductive RaceWinner where
  | worker
  | deadline
deriving Repr, DecidableEq

/-- The dispatch race outcome as a function of the operation's duration
and the deadline. -/
def dispatchRace (opDuration deadlineAfter : Nat) : RaceWinner :=
  if opDuration < deadlineAfter then .worker else .deadline

/-- Dispatch section of `EmbedText` (orus.go lines 1019-1042): the worker
branch responds `respondJSON(w, http.StatusOK, resp)` with the worker's
envelope (success or backend error alike); the deadline branch builds the
timeout envelope and responds with `http.StatusGatewayTimeout`. -/
def embedDispatch (resp : OrusResponse) (opDuration deadlineAfter elapsedAtTimeout : Nat) :
    HttpReply :=
  match dispatchRace opDuration deadlineAfter with
  | .worker => .respondJSON StatusOK resp
  | .deadline =>
      .respondJSON StatusGatewayTimeout
        { NewOrusResponse with
            error := "Error Timeout", success := false,
            timeTaken := elapsedAtTimeout, message := "Error Timeout" }

/-- Parameters of one `EmbedText` execution that are decided outside the
handler: the embedding providers, the serial drawn by the worker, the
worker's duration and the elapsed-time readings, and the caller's own
remaining context budget. -/
structure EmbedTextEnv where
  env : EmbedEnv
  serial : String
  opDuration : Nat
  callerRemaining : Option Nat
  elapsedWorker : Nat
  elapsedAtTimeout : Nat

/-- Handler `EmbedText`, final version (orus.go lines 992-1043): a fresh
`OrusRequest` is allocated and its (nil) body map is consulted for
`model` and `text`; on success of validation the worker running
`embedText` races the 60-second client deadline. Returns the reply and
the backend calls made by the worker (which runs regardless of the race's
winner — the goroutine is not cancelled). -/
def EmbedTextHandler (e : EmbedTextEnv) (inboundBody : GoBody) :
    HttpReply × List BackendCall :=
  let _ := inboundBody
  let request := OrusRequest.new
  match goLookup request.body "model" with
  | none => (.respondError StatusBadRequest "missing_model" "Field 'model' is required", [])
  | some modelVal =>
    match modelVal.asString with
    | none => (.respondError StatusBadRequest "invalid_model" "Field 'model' must be a string", [])
    | some model =>
      match goLookup request.body "text" with
      | none => (.respondError StatusBadRequest "missing_text" "Field 'text' is required", [])
      | some textVal =>
        match textVal.asString with
        | none => (.respondError StatusBadRequest "invalid_text" "Field 'text' must be a string", [])
        | some text =>
          let r := embedText e.env e.serial model text e.elapsedWorker
          (embedDispatch r.1 e.opDuration (clientDeadline e.callerRemaining)
             e.elapsedAtTimeout,
           r.2)

/-- The `json.Marshal` / `json.Unmarshal` round trip applied to the raw
`messages` value in `CallLLM`, kept abstract (external `encoding/json`). -/
structure MessagesCodec where
  marshal : BodyVal → Except String String
  unmarshal : String → Except String (List Message)

/-- Parameters of one `CallLLM` execution decided outside the handler:
the messages codec, the backend NDJSON streams that `ChatStream` / `Chat`
would decode, the local clock, the serial of the closing frame, the
elapsed time, and whether the response writer supports flushing. -/
structure CallLLMEnv where
  codec : MessagesCodec
  streamBackend : List (DecodeItem ChatStreamResponse)
  syncBackend : List (DecodeItem ChatResponse)
  now : Nat → Nat
  serial : String
  elapsed : Nat
  flusherOK : Bool

/-- Handler `CallLLM`, final version (orus.go lines 1219-1357): a fresh
`OrusRequest` is allocated and its (nil) body map is consulted for
`model`, `think`, `messages`, `stream`, `format` and `images`; the
streaming branch relays `ChatStream` as SSE frames, the non-streaming
branch wraps the result of `Chat`. Returns the reply and the backend
calls made. -/
def CallLLMHandler (e : CallLLMEnv) (inboundBody : GoBody) :
    HttpReply × List BackendCall :=
  let _ := inboundBody
  let request := OrusRequest.new
  match goLookup request.body "model" with
  | none => (.respondError StatusBadRequest "missing_model" "Field 'model' is required", [])
  | some modelVal =>
    match modelVal.asString with
    | none => (.respondError StatusBadRequest "invalid_model" "Field 'model' must be a string", [])
    | some model =>
      match goLookup request.body "think" with
      | none => (.respondError StatusBadRequest "missing_think" "Field 'think' is required", [])
      | some thinkVal =>
        match thinkVal.asBool with
        | none => (.respondError StatusBadRequest "invalid_think" "Field 'think' must be a boolean", [])
        | some think =>
          match goLookup request.body "messages" with
          | none => (.respondError StatusBadRequest "missing_messages" "Field 'messages' is required", [])
          | some messagesRaw =>
            match e.codec.marshal messagesRaw with
            | .error _ => (.respondError StatusBadRequest "invalid_messages" "Error marshalling messages", [])
            | .ok messagesJSON =>
              match e.codec.unmarshal messagesJSON with
              | .error err =>
                  (.respondError StatusBadRequest "invalid_messages"
                     ("Error unmarshalling messages: " ++ err), [])
              | .ok messages =>
                let stream :=
                  match goLookup request.body "stream" with
                  | some v => (v.asBool).getD false
                  | none => false
                let format :=
                  match goLookup request.body "format" with
                  | some v => (v.asString).getD ""
                  | none => ""
                let images :=
                  match goLookup request.body "images" with
                  | some v => (v.asStrings).getD []
                  | none => []
                let chatRequest : ChatRequest :=
                  { model := model, messages := messages, stream := stream,
                    format := format, think := think, images := images }
                if stream then
                  if e.flusherOK then
                    (.sse (callLLMStreamTrace chatRequest e.now e.serial
                        e.elapsed e.streamBackend),
                     [.chatStream chatRequest])
                  else
                    (.respondError StatusInternalServerError
                       "streaming_not_supported" "Streaming not supported", [])
                else
                  match Chat e.syncBackend with
                  | .error err =>
                      let response :=
                        { NewOrusResponse with
                            error := err, message := "Error calling LLM",
                            success := false, timeTaken := e.elapsed }
                      (.respondJSON StatusInternalServerError response,
                       [.chat chatRequest])
                  | .ok responseLLM =>
                      (.respondLLM StatusOK true
                         "LLM request received successfully"
                         responseLLM.message.content e.serial e.elapsed
                         model stream think,
                       [.chat chatRequest])

/-- Handler `OllamaPullModel`, final version (orus.go lines 1080-1131):
the local request struct is never populated from the body, so its `Name`
field keeps the zero value `""`; a non-empty name would stream
`PullModel` progress over SSE. Returns the reply and the backend calls
made. -/
def OllamaPullModelHandler (flusherOK : Bool)
    (backendStream : List (DecodeItem PullModelProgress))
    (inboundBody : GoBody) : HttpReply × List BackendCall :=
  let _ := inboundBody
  let reqName : String := ""
  if reqName = "" then
    (.respondError StatusBadRequest "missing_name" "Field 'name' is required", [])
  else if flusherOK = false then
    (.respondError StatusInternalServerError "streaming_not_supported"
       "Streaming not supported", [])
  else
    (.sse (OllamaPullModelRelay reqName backendStream), [.pullModel reqName])

/-- State of the `EmbedText` dispatch race (orus.go lines 1019-1042):
whether the 60-second context has expired, whether the one-slot buffered
`respChan` holds a value, whether the worker goroutine has finished its
own `select`, and the list of responses the handler has written. -/
structure DispState where
  ctxDone : Bool
  chanFull : Bool
  workerExited : Bool
  delivered : List RaceWinner
deriving Repr, DecidableEq

/-- Initial dispatch state: deadline pending, channel empty, worker
running, nothing delivered. -/
def DispState.init : DispState :=
  { ctxDone := false, chanFull := false, workerExited := false, delivered := [] }

/-- Interleaving semantics of the dispatch race: the deadline may fire;
the worker's `select` either sends the result into the empty buffered
channel or aborts once the context is done; the handler's `select` runs
once, delivering either the worker result (HTTP 200 envelope: success
payload or backend error) or the timeout marker (HTTP 504). When several
branches are ready, any may fire — the choice is nondeterministic, as in
Go. -/
inductive DispStep : DispState → DispState → Prop where
  | deadlineFires (s : DispState) : s.ctxDone = false →
      DispStep s { s with ctxDone := true }
  | workerSend (s : DispState) : s.workerExited = false → s.chanFull = false →
      DispStep s { s with chanFull := true, workerExited := true }
  | workerAbort (s : DispState) : s.workerExited = false → s.ctxDone = true →
      DispStep s { s with workerExited := true }
  | mainRecv (s : DispState) : s.delivered = [] → s.chanFull = true →
      DispStep s { s with delivered := [RaceWinner.worker], chanFull := false }
  | mainTimeout (s : DispState) : s.delivered = [] → s.ctxDone = true →
      DispStep s { s with delivered := [RaceWinner.deadline] }

/-- A dispatch state reachable from the initial state. -/
def DispReachable (s : DispState) : Prop :=
  Relation.ReflTransGen DispStep DispState.init s

/-- A dispatch state in which no step is enabled: the request's race has
fully played out. -/
def DispStuck (s : DispState) : Prop :=
  ∀ t, ¬ DispStep s t

/-- The callback arguments `ChatStream` produces from a list of decoded
events when iteration starts at index `i`: each event paired with its
index and passed through `chatStreamTransform`. -/
def streamDeliveredFrom (req : ChatRequest) (now : Nat → Nat) (i : Nat)
    (events : List ChatStreamResponse) : List ChatStreamResponse :=
  (List.enumFrom i events).map (fun q => chatStreamTransform req now q.1 q.2)

/-! Helper lemmas. -/

lemma strConcat_cons (s : String) (l : List String) :
    strConcat (s :: l) = s ++ strConcat l := rfl

lemma chatStreamTransform_eq (req : ChatRequest) (now : Nat → Nat) (i : Nat)
    (e : ChatStreamResponse) :
    chatStreamTransform req now i e =
      { e with model := req.model, createdAt := now i } := rfl

lemma ChatLoop_map_ok (events : List ChatResponse) :
    ∀ (full : String) (fin : ChatResponse), ∃ fin',
      ChatLoop (events.map .ok) full fin =
        .ok (full ++ strConcat ((takeThrough (fun e => e.done = true) events).map
              (fun e => e.message.content)), fin') := by
  induction events with
  | nil =>
      intro full fin
      exact ⟨fin, by simp [ChatLoop, takeThrough, strConcat]⟩
  | cons e rest ih =>
      intro full fin
      simp only [List.map_cons, ChatLoop]
      by_cases hd : e.done = true
      · rw [if_pos hd]
        refine ⟨{ model := e.model,
                  message := { role := e.message.role, content := fin.message.content },
                  createdAt := e.createdAt, done := e.done }, ?_⟩
        simp [takeThrough, hd, strConcat]
      · rw [if_neg hd]
        obtain ⟨fin', h⟩ := ih (full ++ e.message.content)
          { model := e.model,
            message := { role := e.message.role, content := fin.message.content },
            createdAt := e.createdAt, done := e.done }
        refine ⟨fin', ?_⟩
        rw [h]
        simp [takeThrough, hd, strConcat, String.append_assoc]

lemma decodedEvents_map_ok (p : α → Prop) [DecidablePred p] (events : List α) :
    decodedEvents p (events.map .ok) = takeThrough p events := by
  induction events with
  | nil => simp [decodedEvents, takeThrough]
  | cons e rest ih =>
      by_cases hd : p e <;> simp [decodedEvents, takeThrough, hd, ih]

lemma decodeAbort_map_ok (p : α → Prop) [DecidablePred p] (events : List α) :
    decodeAbort p (events.map .ok) = none := by
  induction events with
  | nil => simp [decodeAbort]
  | cons e rest ih =>
      by_cases hd : p e <;> simp [decodeAbort, hd, ih]

lemma ChatStreamGo_eq (req : ChatRequest) (now : Nat → Nat) :
    ∀ (s : List (DecodeItem ChatStreamResponse)) (i : Nat),
      ChatStreamGo req now i s =
        (streamDeliveredFrom req now i (decodedEvents (fun e => e.done = true) s),
         (decodeAbort (fun e => e.done = true) s).map
           (fun m => "error decoding response: " ++ m)) := by
  intro s
  induction s with
  | nil =>
      intro i
      simp [ChatStreamGo, decodedEvents, decodeAbort, streamDeliveredFrom]
  | cons item rest ih =>
      intro i
      cases item with
      | bad m =>
          simp [ChatStreamGo, decodedEvents, decodeAbort, streamDeliveredFrom]
      | ok e =>
          by_cases hd : e.done = true
          · simp [ChatStreamGo, decodedEvents, decodeAbort,
              streamDeliveredFrom, hd, List.enumFrom]
          · simp [ChatStreamGo, decodedEvents, decodeAbort,
              streamDeliveredFrom, hd, ih (i + 1), List.enumFrom_cons]

lemma streamDeliveredFrom_contents (req : ChatRequest) (now : Nat → Nat) :
    ∀ (events : List ChatStreamResponse) (i : Nat),
      (streamDeliveredFrom req now i events).map (fun e => e.message.content) =
        events.map (fun e => e.message.content) := by
  intro events
  induction events with
  | nil => intro i; simp [streamDeliveredFrom]
  | cons e rest ih =>
      intro i
      simp [streamDeliveredFrom, List.enumFrom_cons, chatStreamTransform] at ih ⊢
      exact ih (i + 1)

lemma callbackContents_eq (l : List ChatStreamResponse) :
    callbackContents l = l.map (fun e => e.message.content) := by
  induction l with
  | nil => rfl
  | cons e rest ih => simp [callbackContents, ih]

lemma relayTrace_flatMap (l : List ChatStreamResponse) :
    relayTrace l = l.flatMap (fun e => [.write (.event e), .flush]) := by
  induction l with
  | nil => rfl
  | cons e rest ih => simp [relayTrace, ih, List.flatMap_cons]

lemma callLLMStreamTrace_map_ok (req : ChatRequest) (now : Nat → Nat)
    (serial : String) (elapsed : Nat) (events : List ChatStreamResponse) :
    callLLMStreamTrace req now serial elapsed (events.map .ok) =
      .flush :: relayTrace (streamDeliveredFrom req now 0
          (takeThrough (fun e => e.done = true) events)) ++
        [.write (.summary "success" "LLM request received successfully"
            (strConcat ((takeThrough (fun e => e.done = true) events).map
              (fun e => e.message.content)))
            serial elapsed req.model true), .flush] := by
  simp [callLLMStreamTrace, ChatStreamGo_eq, decodedEvents_map_ok,
    decodeAbort_map_ok, callbackContents_eq, streamDeliveredFrom_contents]

lemma PullModelLoop_eq :
    ∀ s, PullModelLoop s =
      (decodedEvents (fun x => x.status = "success") s,
       decodeAbort (fun x => x.status = "success") s) := by
  intro s
  induction s with
  | nil => simp [PullModelLoop, decodedEvents, decodeAbort]
  | cons item rest ih =>
      cases item with
      | bad m => simp [PullModelLoop, decodedEvents, decodeAbort]
      | ok p =>
          by_cases hd : p.status = "success" <;>
            simp [PullModelLoop, decodedEvents, decodeAbort, hd, ih]

lemma decodedEvents_append_bad (p : α → Prop) [DecidablePred p]
    (m : String) (rest : List (DecodeItem α)) :
    ∀ (front : List α), (∀ e ∈ front, ¬ p e) →
      decodedEvents p (front.map .ok ++ .bad m :: rest) = front ∧
      decodeAbort p (front.map .ok ++ .bad m :: rest) = some m := by
  intro front
  induction front with
  | nil => intro _; simp [decodedEvents, decodeAbort]
  | cons e tl ih =>
      intro hnp
      have he : ¬ p e := hnp e (by simp)
      have htl := ih (fun x hx => hnp x (by simp [hx]))
      simp [decodedEvents, decodeAbort, he, htl.1, htl.2]

lemma decodedEvents_append_stop (p : α → Prop) [DecidablePred p]
    (a : α) (rest : List (DecodeItem α)) (ha : p a) :
    ∀ (front : List α), (∀ e ∈ front, ¬ p e) →
      decodedEvents p (front.map .ok ++ .ok a :: rest) = front ++ [a] ∧
      decodeAbort p (front.map .ok ++ .ok a :: rest) = none := by
  intro front
  induction front with
  | nil => intro _; simp [decodedEvents, decodeAbort, ha]
  | cons e tl ih =>
      intro hnp
      have he : ¬ p e := hnp e (by simp)
      have htl := ih (fun x hx => hnp x (by simp [hx]))
      simp [decodedEvents, decodeAbort, he, htl.1, htl.2]

/-! Claim theorems. -/

/-- C1: for every finite sequence of content deltas decoded from the
backend stream (the well-formed prefix up to and including the first
`done` event), the synchronous path `Chat` returns a response whose
message content is their ordered concatenation, and the streaming path
places the same concatenation in the content field of the closing summary
frame; in particular the two-event stream
`[{content:"Hel",done:false},{content:"lo",done:true}]` yields
`"Hello"` on both paths. -/
theorem chat_content_concatenates_deltas :
    (∀ events : List ChatResponse, ∃ r,
      Chat (events.map .ok) = .ok r ∧
        r.message.content =
          strConcat ((takeThrough (fun e => e.done = true) events).map
            (fun e => e.message.content))) ∧
    (∀ (req : ChatRequest) (now : Nat → Nat) (serial : String) (elapsed : Nat)
        (events : List ChatStreamResponse),
      callLLMStreamTrace req now serial elapsed (events.map .ok) =
        .flush :: relayTrace (streamDeliveredFrom req now 0
            (takeThrough (fun e => e.done = true) events)) ++
          [.write (.summary "success" "LLM request received successfully"
              (strConcat ((takeThrough (fun e => e.done = true) events).map
                (fun e => e.message.content)))
              serial elapsed req.model true), .flush]) ∧
    (∃ r, Chat
        [.ok { model := "m", message := { role := "assistant", content := "Hel" },
               createdAt := 0, done := false },
         .ok { model := "m", message := { role := "assistant", content := "lo" },
               createdAt := 1, done := true }] = .ok r ∧
      r.message.content = "Hello") ∧
    callLLMStreamTrace
        { model := "llama", messages := [], stream := true, format := "",
          think := false, images := [] }
        (fun i => i) "serial0" 7
        [.ok { model := "m", message := { role := "assistant", content := "Hel" },
               createdAt := 99, done := false, progress := 0, total := 0, completed := 0 },
         .ok { model := "m", message := { role := "assistant", content := "lo" },
               createdAt := 99, done := true, progress := 0, total := 0, completed := 0 }] =
      [.flush,
       .write (.event { model := "llama",
                        message := { role := "assistant", content := "Hel" },
                        createdAt := 0, done := false, progress := 0,
                        total := 0, completed := 0 }),
       .flush,
       .write (.event { model := "llama",
                        message := { role := "assistant", content := "lo" },
                        createdAt := 1, done := true, progress := 0,
                        total := 0, completed := 0 }),
       .flush,
       .write (.summary "success" "LLM request received successfully" "Hello"
         "serial0" 7 "llama" true),
       .flush] := by
  refine ⟨?_, ?_, ?_, rfl⟩
  · intro events
    obtain ⟨fin', h⟩ := ChatLoop_map_ok events "" ChatResponse.zero
    refine ⟨{ fin' with message := { fin'.message with content := strConcat ((takeThrough (fun e => e.done = true) events).map (fun e => e.message.content)) } }, ?_, rfl⟩
    simp [Chat, h]
  · intro req now serial elapsed events
    exact callLLMStreamTrace_map_ok req now serial elapsed events
  · exact ⟨_, rfl, rfl⟩

/-- C2: the final versions of the `EmbedText`, `CallLLM` and
`OllamaPullModel` handlers never read the inbound request body: the
freshly allocated `OrusRequest` has a nil body map and the pull request
struct keeps its zero value, so every inbound request — whatever its
body — gets the missing-required-field validation error (`missing_model`
or `missing_name`) and no embedder or backend call is ever made. -/
theorem final_handlers_never_read_request_body :
    ∀ (e : EmbedTextEnv) (c : CallLLMEnv) (fl : Bool)
      (ps : List (DecodeItem PullModelProgress)) (b1 b2 b3 : GoBody),
      EmbedTextHandler e b1 =
        (.respondError StatusBadRequest "missing_model"
          "Field 'model' is required", []) ∧
      CallLLMHandler c b2 =
        (.respondError StatusBadRequest "missing_model"
          "Field 'model' is required", []) ∧
      OllamaPullModelHandler fl ps b3 =
        (.respondError StatusBadRequest "missing_name"
          "Field 'name' is required", []) := by
  intro e c fl ps b1 b2 b3
  exact ⟨rfl, rfl, rfl⟩

/-- C3: a pull stream that reaches end-of-stream without any
`status:"success"` object is nonetheless reported as a success: the
`PullModel` loop falls off the stream and returns nil, and the handler's
success branch then emits a `status:"success"` SSE frame. This evaluates
the code at the failing input of the claim (the claim — and spec
section 8 — require an incomplete/error outcome here). -/
theorem pull_eos_without_success_reports_success :
    PullModelLoop
        [.ok { status := "pulling manifest", digest := "", total := 0, completed := 0 }] =
      ([{ status := "pulling manifest", digest := "", total := 0, completed := 0 }], none) ∧
    OllamaPullModelRelay "llama3"
        [.ok { status := "pulling manifest", digest := "", total := 0, completed := 0 }] =
      [.write (.pull { status := "pulling manifest", digest := "", total := 0, completed := 0 }),
       .flush,
       .write (.pullSuccess "success" "Model llama3 downloaded successfully"),
       .flush] :=
  ⟨rfl, rfl⟩

/-- C4: when the embed operation has not completed by the client-facing
deadline (60 seconds by default, or the caller's shorter budget), the
dispatch produces the timeout outcome: an envelope with `Success=false`
and error `"Error Timeout"` delivered with the distinct 504
gateway-timeout status, which differs from the statuses used for
worker-delivered (upstream-error) envelopes. -/
theorem embed_timeout_outcome (cr : Option Nat) (resp : OrusResponse)
    (opDuration elapsedAtTimeout : Nat)
    (h : clientDeadline cr < opDuration) :
    embedDispatch resp opDuration (clientDeadline cr) elapsedAtTimeout =
      .respondJSON StatusGatewayTimeout
        { NewOrusResponse with
            error := "Error Timeout", success := false,
            timeTaken := elapsedAtTimeout, message := "Error Timeout" } ∧
    clientDeadline none = 60 ∧
    (∀ c, clientDeadline (some c) = min c 60) ∧
    StatusGatewayTimeout ≠ StatusOK ∧
    StatusGatewayTimeout ≠ StatusInternalServerError := by
  refine ⟨?_, rfl, fun c => rfl, by decide, by decide⟩
  have hrace : dispatchRace opDuration (clientDeadline cr) = .deadline := by
    unfold dispatchRace
    rw [if_neg]
    omega
  simp [embedDispatch, hrace]

/-- C4 witness: a 61-unit operation against the default 60-unit deadline
times out with the 504 envelope. -/
theorem embed_timeout_outcome_witness :
    embedDispatch NewOrusResponse 61 (clientDeadline none) 5 =
      .respondJSON StatusGatewayTimeout
        { NewOrusResponse with
            error := "Error Timeout", success := false,
            timeTaken := 5, message := "Error Timeout" } :=
  (embed_timeout_outcome none NewOrusResponse 61 5 (by decide)).1

/-- C5: in every reachable state of the dispatch race at most one
response has been delivered, and in every reachable state where the race
has fully played out (no step enabled) exactly one response has been
delivered — the client never receives two responses and never none. -/
theorem dispatch_delivers_exactly_one_result :
    ∀ s, DispReachable s →
      s.delivered.length ≤ 1 ∧ (DispStuck s → s.delivered.length = 1) := by
  have inv : ∀ s, DispReachable s → s.delivered.length ≤ 1 := by
    intro s h
    induction h with
    | refl => simp [DispState.init]
    | tail _ step ih =>
        cases step with
        | deadlineFires ht => simpa using ih
        | workerSend h1 h2 => simpa using ih
        | workerAbort h1 h2 => simpa using ih
        | mainRecv h1 h2 => simp
        | mainTimeout h1 h2 => simp
  intro s hs
  refine ⟨inv s hs, ?_⟩
  intro hstuck
  by_cases hc : s.ctxDone = true
  · by_cases hd : s.delivered = []
    · exact absurd (DispStep.mainTimeout s hd hc) (hstuck _)
    · have h1 := inv s hs
      have h0 : s.delivered.length ≠ 0 := by
        simpa [List.length_eq_zero] using hd
      omega
  · have hc' : s.ctxDone = false := by simpa using hc
    exact absurd (DispStep.deadlineFires s hc') (hstuck _)

/-- C5 witness: the play-out where the deadline fires, the worker aborts,
and the handler delivers the timeout result, reaches a stuck state with
exactly one delivery. -/
theorem dispatch_delivers_exactly_one_result_witness :
    (⟨true, false, true, [RaceWinner.deadline]⟩ : DispState).delivered.length = 1 := by
  have h1 : DispStep DispState.init ⟨true, false, false, []⟩ :=
    DispStep.deadlineFires DispState.init rfl
  have h2 : DispStep (⟨true, false, false, []⟩ : DispState) ⟨true, false, true, []⟩ :=
    DispStep.workerAbort _ rfl rfl
  have h3 : DispStep (⟨true, false, true, []⟩ : DispState)
      ⟨true, false, true, [RaceWinner.deadline]⟩ :=
    DispStep.mainTimeout _ rfl rfl
  have hr : DispReachable ⟨true, false, true, [RaceWinner.deadline]⟩ :=
    Relation.ReflTransGen.tail
      (Relation.ReflTransGen.tail
        (Relation.ReflTransGen.tail Relation.ReflTransGen.refl h1) h2) h3
  have hstuck : DispStuck ⟨true, false, true, [RaceWinner.deadline]⟩ := by
    intro t ht
    cases ht <;> simp_all
  exact (dispatch_delivers_exactly_one_result _ hr).2 hstuck

/-- C6: the provider switch is an exact-match lookup with no default
fallback: any identifier outside the three-entry table (in particular
`"unknown-model"`) yields the invalid-model error and no backend call;
`"bge-m3"` routes to the in-process embedder with quantization
`"float32"`; `"nomic-embed-text:latest"` routes to the backend with
quantization `"float64"`; and the alias `"ollama-bge-m3"` is forwarded to
the backend under the canonical name `"bge-m3:latest"`. -/
theorem embed_provider_resolution (env : EmbedEnv) (serial text : String)
    (elapsed : Nat) :
    (∀ model, model ≠ "bge-m3" → model ≠ "nomic-embed-text:latest" →
      model ≠ "ollama-bge-m3" →
      embedText env serial model text elapsed =
        ({ NewOrusResponse with
             error := "Invalid model", success := false,
             timeTaken := elapsed, message := "Invalid model" }, [])) ∧
    (∀ v32, env.bgeEmbed text = .ok v32 →
      (embedText env serial "bge-m3" text elapsed).1.data =
        some { serial := serial, vector := v32.map .f32, text := text,
               model := "bge-m3", dimensions := v32.length,
               quantization := "float32" } ∧
      (embedText env serial "bge-m3" text elapsed).2 = [.bgeEmbed text]) ∧
    (∀ v64, env.getEmbedding "nomic-embed-text:latest" text = .ok v64 →
      (embedText env serial "nomic-embed-text:latest" text elapsed).1.data =
        some { serial := serial, vector := v64.map .f64, text := text,
               model := "nomic-embed-text:latest", dimensions := v64.length,
               quantization := "float64" } ∧
      (embedText env serial "nomic-embed-text:latest" text elapsed).2 =
        [.getEmbedding "nomic-embed-text:latest" text]) ∧
    (embedText env serial "ollama-bge-m3" text elapsed).2 =
      [.getEmbedding "bge-m3:latest" text] := by
  refine ⟨?_, ?_, ?_, ?_⟩
  · intro model h1 h2 h3
    simp [embedText, h1, h2, h3]
  · intro v32 hv
    constructor <;> simp [embedText, hv]
  · intro v64 hv
    constructor <;> simp [embedText, hv]
  · cases hv : env.getEmbedding "bge-m3:latest" text <;> simp [embedText, hv]

/-- C6 witness: a concrete provider environment resolving
`"unknown-model"` to the invalid-model error and `"bge-m3"` to the
float32 in-process route. -/
theorem embed_provider_resolution_witness :
    embedText ⟨fun _ => .ok [⟨0⟩], fun _ _ => .ok [⟨0⟩]⟩ "s" "unknown-model" "hi" 3 =
      ({ NewOrusResponse with
           error := "Invalid model", success := false,
           timeTaken := 3, message := "Invalid model" }, []) ∧
    (embedText ⟨fun _ => .ok [⟨0⟩], fun _ _ => .ok [⟨0⟩]⟩ "s" "bge-m3" "hi" 3).1.data =
      some { serial := "s", vector := [VecElem.f32 ⟨0⟩], text := "hi",
             model := "bge-m3", dimensions := 1, quantization := "float32" } :=
  ⟨(embed_provider_resolution ⟨fun _ => .ok [⟨0⟩], fun _ _ => .ok [⟨0⟩]⟩ "s" "hi" 3).1
      "unknown-model" (by decide) (by decide) (by decide),
   ((embed_provider_resolution ⟨fun _ => .ok [⟨0⟩], fun _ _ => .ok [⟨0⟩]⟩ "s" "hi" 3).2.1
      [⟨0⟩] rfl).1⟩

/-- C7: on a stream that terminates normally, every decoded event is
relayed as exactly one `data:` frame followed by a flush, in arrival
order with no batching or reordering, and exactly one closing summary
frame follows, carrying the accumulated content, the serial generated for
the closing frame, and the elapsed time; rendered frames have the wire
shape `data: <json>\n\n`. -/
theorem stream_relay_frames :
    (∀ (req : ChatRequest) (now : Nat → Nat) (serial : String) (elapsed : Nat)
        (events : List ChatStreamResponse),
      callLLMStreamTrace req now serial elapsed (events.map .ok) =
        .flush :: (streamDeliveredFrom req now 0
            (takeThrough (fun e => e.done = true) events)).flatMap
            (fun e => [.write (.event e), .flush]) ++
          [.write (.summary "success" "LLM request received successfully"
              (strConcat ((takeThrough (fun e => e.done = true) events).map
                (fun e => e.message.content)))
              serial elapsed req.model true), .flush]) ∧
    (∀ payload, sseWireFormat payload = "data: " ++ payload ++ "\n\n") ∧
    (∀ (enc : SSEFrame → String) (f : SSEFrame),
      renderAction enc (.write f) = [sseWireFormat (enc f)] ∧
      renderAction enc .flush = []) := by
  refine ⟨?_, fun _ => rfl, fun _ _ => ⟨rfl, rfl⟩⟩
  intro req now serial elapsed events
  rw [callLLMStreamTrace_map_ok, relayTrace_flatMap]

/-- C8 counterexample: the claim quantifies over every stream containing
a malformed object, but when a `done:true` event precedes the malformed
object the loop breaks at `done` and never decodes it: no decode error is
produced and the streaming path emits a normal success summary, not an
error frame. -/
theorem decode_error_after_done_not_reported :
    (ChatStreamGo
        { model := "llama", messages := [], stream := true, format := "",
          think := false, images := [] }
        (fun i => i) 0
        [.ok { model := "m", message := { role := "assistant", content := "Hi" },
               createdAt := 99, done := true, progress := 0, total := 0, completed := 0 },
         .bad "x"]).2 = none ∧
    callLLMStreamTrace
        { model := "llama", messages := [], stream := true, format := "",
          think := false, images := [] }
        (fun i => i) "serial0" 3
        [.ok { model := "m", message := { role := "assistant", content := "Hi" },
               createdAt := 99, done := true, progress := 0, total := 0, completed := 0 },
         .bad "x"] =
      [.flush,
       .write (.event { model := "llama",
                        message := { role := "assistant", content := "Hi" },
                        createdAt := 0, done := true, progress := 0,
                        total := 0, completed := 0 }),
       .flush,
       .write (.summary "success" "LLM request received successfully" "Hi"
         "serial0" 3 "llama" true),
       .flush] :=
  ⟨rfl, rfl⟩

/-- C8 (amended): for every stream whose decoded portion reaches a
malformed object (no terminal `done` event precedes it), decoding
terminates at that object with a decode error, nothing after it is
decoded or delivered, events already delivered are kept, and the
streaming path reports one SSE error frame after the partial content. -/
theorem decode_error_aborts_stream (req : ChatRequest) (now : Nat → Nat)
    (serial : String) (elapsed : Nat) (front : List ChatStreamResponse)
    (m : String) (rest : List (DecodeItem ChatStreamResponse))
    (h : ∀ e ∈ front, e.done = false) :
    ChatStreamGo req now 0 (front.map .ok ++ .bad m :: rest) =
      (streamDeliveredFrom req now 0 front,
       some ("error decoding response: " ++ m)) ∧
    callLLMStreamTrace req now serial elapsed (front.map .ok ++ .bad m :: rest) =
      .flush :: relayTrace (streamDeliveredFrom req now 0 front) ++
        [.write (.errorFrame "error" ("error decoding response: " ++ m)), .flush] := by
  have hnp : ∀ e ∈ front, ¬ (e.done = true) := by
    intro e he
    simp [h e he]
  obtain ⟨hde, hab⟩ :=
    decodedEvents_append_bad (fun e : ChatStreamResponse => e.done = true) m rest front hnp
  constructor
  · rw [ChatStreamGo_eq, hde, hab]
    rfl
  · simp [callLLMStreamTrace, ChatStreamGo_eq, hde, hab]

/-- C8 witness: one well-formed non-terminal event followed by a
malformed object and a trailing object: the trailing object is never
delivered and one error frame follows the partial content. -/
theorem decode_error_aborts_stream_witness :
    callLLMStreamTrace
        { model := "llama", messages := [], stream := true, format := "",
          think := false, images := [] }
        (fun i => i) "serial0" 3
        (([{ model := "m", message := { role := "assistant", content := "Hel" },
             createdAt := 99, done := false, progress := 0, total := 0, completed := 0 }] :
            List ChatStreamResponse).map .ok ++ .bad "x" ::
          [.ok { model := "m", message := { role := "assistant", content := "lo" },
                 createdAt := 99, done := true, progress := 0, total := 0, completed := 0 }]) =
      .flush :: relayTrace (streamDeliveredFrom
          { model := "llama", messages := [], stream := true, format := "",
            think := false, images := [] }
          (fun i => i) 0
          [{ model := "m", message := { role := "assistant", content := "Hel" },
             createdAt := 99, done := false, progress := 0, total := 0, completed := 0 }]) ++
        [.write (.errorFrame "error" ("error decoding response: " ++ "x")), .flush] :=
  (decode_error_aborts_stream
      { model := "llama", messages := [], stream := true, format := "",
        think := false, images := [] }
      (fun i => i) "serial0" 3
      [{ model := "m", message := { role := "assistant", content := "Hel" },
         createdAt := 99, done := false, progress := 0, total := 0, completed := 0 }]
      "x"
      [.ok { model := "m", message := { role := "assistant", content := "lo" },
             createdAt := 99, done := true, progress := 0, total := 0, completed := 0 }]
      (by decide)).2

/-- C9: every callback argument of `ChatStream` is the decoded event with
its model overwritten by the request's model, its timestamp overwritten by
the locally generated clock value of that iteration, and its message
content equal to exactly that single event's delta — never cumulative
content. -/
theorem chatstream_callback_overwrites :
    (∀ (req : ChatRequest) (now : Nat → Nat)
        (s : List (DecodeItem ChatStreamResponse)),
      (ChatStreamGo req now 0 s).1 =
        streamDeliveredFrom req now 0
          (decodedEvents (fun e => e.done = true) s)) ∧
    (∀ (req : ChatRequest) (now : Nat → Nat) (i : Nat) (e : ChatStreamResponse),
      chatStreamTransform req now i e =
        { e with model := req.model, createdAt := now i }) ∧
    (∀ (req : ChatRequest) (now : Nat → Nat) (i : Nat) (e : ChatStreamResponse),
      (chatStreamTransform req now i e).message.content = e.message.content) := by
  refine ⟨?_, fun _ _ _ _ => rfl, fun _ _ _ _ => rfl⟩
  intro req now s
  rw [ChatStreamGo_eq]

/-- C10: `PullModel` stops consuming the stream right after delivering
the first progress object whose status is `"success"`: earlier objects
and that object are delivered in order, nothing positioned after it is
decoded or delivered, and the function returns a nil error. -/
theorem pullmodel_stops_at_first_success (front : List PullModelProgress)
    (s : PullModelProgress) (rest : List (DecodeItem PullModelProgress))
    (hf : ∀ p ∈ front, p.status ≠ "success") (hs : s.status = "success") :
    PullModelLoop (front.map .ok ++ .ok s :: rest) = (front ++ [s], none) := by
  obtain ⟨hde, hab⟩ :=
    decodedEvents_append_stop (fun x : PullModelProgress => x.status = "success")
      s rest hs front hf
  rw [PullModelLoop_eq, hde, hab]

/-- C10 witness: a downloading object, then the success object, then a
trailing object: delivery stops at the success object and the result is
nil. -/
theorem pullmodel_stops_at_first_success_witness :
    PullModelLoop
        (([{ status := "downloading", digest := "d", total := 10, completed := 5 }] :
            List PullModelProgress).map .ok ++
          .ok { status := "success", digest := "", total := 0, completed := 0 } ::
          [.ok { status := "after", digest := "", total := 0, completed := 0 }]) =
      ([{ status := "downloading", digest := "d", total := 10, completed := 5 }] ++
        [{ status := "success", digest := "", total := 0, completed := 0 }], none) :=
  pullmodel_stops_at_first_success
    [{ status := "downloading", digest := "d", total := 10, completed := 5 }]
    { status := "success", digest := "", total := 0, completed := 0 }
    [.ok { status := "after", digest := "", total := 0, completed := 0 }]
    (by decide) rfl

end OrusCore
